import Mathlib

/-!
Shallow embedding of the rilla-core threshold-voltage extraction modules.

Numeric samples are modelled as rationals.  The embedded functions follow
`src/analysis.py` (the earlier revision of the extractor),
`src/engines/analysis.py` (the later revision, with the drain-current
candidate-name list) and `src/engines/pyltspice_engine.py` (the engine
wrapper that serialises results to JSON).  Fallible Python code is
modelled with `Option`/`Except`; an exception that escapes a function is
an `Except.error` value.
-/

namespace Rilla

/-- `np.abs` on one number: the absolute value. -/
def np_abs (q : ℚ) : ℚ := if q < 0 then -q else q

/-- A signal as produced by the raw-file reader: one sampled waveform
(list of numeric samples) per parametric sweep step.
Modelled from the spec: the PyLTSpice `RawRead` trace object is not part
of this repository; the TraceSet contract in the spec says a signal can be
asked for its waveform at a given sweep-step index
(`Signal.getWaveform(stepIndex) → sequence<real> | error`). -/
structure Signal where
  waves : List (List ℚ)
deriving DecidableEq

/-- A parsed simulation result set: a mapping from trace name to signal.
Modelled from the spec: `TraceSet` is "a mapping from trace name (string)
to a queryable signal". -/
structure TraceSet where
  traces : List (String × Signal)
deriving DecidableEq

/-- First-match association-list lookup. -/
def lookup_assoc : List (String × Signal) → String → Option Signal
  | [], _ => none
  | (k, v) :: rest, name => if k = name then some v else lookup_assoc rest name

/-- `RawRead.get_trace_names()`: the list of all available trace names. -/
def get_trace_names (ts : TraceSet) : List String :=
  ts.traces.map (fun p => p.1)

/-- `RawRead.get_trace(name)`.
Modelled from the spec: the PyLTSpice lookup itself is not repository
code; the contract in the spec is `getTrace(name) → Signal | missing`. -/
def get_trace (ts : TraceSet) (name : String) : Option Signal :=
  lookup_assoc ts.traces name

/-- `trace.get_wave(step_idx)`: the waveform of a signal at one sweep
step, or `none` when unavailable (step index out of range). -/
def get_wave (s : Signal) (stepIdx : Nat) : Option (List ℚ) :=
  s.waves[stepIdx]?

/-- `np.arange(start, stop, step)` for a positive step: the values
`start + k * step` for `k = 0, 1, ...` as long as they are below `stop`;
the length is `⌈(stop - start) / step⌉`. -/
def np_arange (start stop step : ℚ) : List ℚ :=
  (List.range (⌈(stop - start) / step⌉).toNat).map (fun k => start + (k : ℚ) * step)

/-- Inner loop of `np.argmin(np.abs(temps - target))`: scan the remaining
list, keeping the index and value of the best (strictly smallest)
absolute difference seen so far; ties keep the earlier index, matching
`np.argmin`, which returns the first occurrence of the minimum. -/
def argmin_go (target : ℚ) : List ℚ → Nat → ℚ → Nat → Nat
  | [], bestIdx, _, _ => bestIdx
  | t :: ts, bestIdx, bestVal, curIdx =>
      if np_abs (t - target) < bestVal then
        argmin_go target ts curIdx (np_abs (t - target)) (curIdx + 1)
      else
        argmin_go target ts bestIdx bestVal (curIdx + 1)

/-- The step-selection snippet shared by both revisions:
`step_idx = (np.abs(temps - target)).argmin()` wrapped in
`try ... except (ValueError, IndexError): step_idx = 0`.
On an empty array `np.argmin` raises `ValueError`, which the `except`
branch turns into step index 0. -/
def select_step_idx (temps : List ℚ) (target : ℚ) : Nat :=
  match temps with
  | [] => 0
  | t :: ts => argmin_go target ts 0 (np_abs (t - target)) 1

/-- `temps = np.arange(-55, 175.1, 10)` from `src/engines/analysis.py`. -/
def temps_engines : List ℚ := np_arange (-55) (1751 / 10) 10

/-- `temps = np.arange(-55, 176, 10)` from `src/analysis.py`. -/
def temps_old : List ℚ := np_arange (-55) 176 10

/-- The `step_idx` local of `extract_vth_at_25c` in
`src/engines/analysis.py`: the index of the sweep step nearest 25 °C. -/
def step_idx_25 : Nat := select_step_idx temps_engines 25

/-- The `step_idx` local of `extract_vth_at_25c` in `src/analysis.py`. -/
def step_idx_25_old : Nat := select_step_idx temps_old 25

/-- Typed errors of the extraction modules, mirroring the spec taxonomy
and the exceptions the Python code raises (`RuntimeError` for a missing
drain-current trace with the available names in the message; the raw-file
reader error for a missing trace; the ValueError cases of `np.interp`). -/
inductive VthError where
  /-- A required named trace is absent; carries the requested name(s) and
  the full available-trace-name list. -/
  | traceNotFound (requested : List String) (available : List String)
  /-- A trace exists but cannot yield a waveform at the step index. -/
  | waveformUnavailable (stepIdx : Nat)
  /-- `np.interp`: the sample-point array is empty. -/
  | interpEmpty
  /-- `np.interp`: `fp` and `xp` are not of the same length. -/
  | interpShapeMismatch
deriving DecidableEq

/-- The fixed candidate list of drain-current trace names from
`_find_drain_current_trace`, in order of preference. -/
def possible_names : List String :=
  ["Ix(xu1:D)", "Ix(xu1:DRAIN)", "Id(XU1)", "Id(M1)"]

/-- Python `str.lower()` (ASCII case folding, which covers every
character appearing in trace names here). -/
def str_lower (s : String) : String := ⟨s.data.map Char.toLower⟩

/-- The scan of `_find_drain_current_trace`: for each candidate name in
order, look for the first available trace name equal to it
case-insensitively; the first hit wins and its original spelling is
returned. -/
def find_matching_trace_name (all_traces : List String) : Option String :=
  possible_names.findSome? (fun name =>
    all_traces.find? (fun trace => str_lower trace == str_lower name))

/-- `VthExtractor._find_drain_current_trace` from
`src/engines/analysis.py`: resolve the drain-current trace by the
candidate list; when no candidate matches, raise a `RuntimeError` whose
message carries the full available-trace list. -/
def find_drain_current_trace (ts : TraceSet) : Except VthError Signal :=
  match find_matching_trace_name (get_trace_names ts) with
  | some traceName =>
      match get_trace ts traceName with
      | some s => .ok s
      | none => .error (.traceNotFound [traceName] (get_trace_names ts))
  | none => .error (.traceNotFound possible_names (get_trace_names ts))

/-- Core of `np.interp(x, xp, fp)` on two equally long sample lists:
walk the consecutive sample pairs; clamp to the first value at or below
the first sample site, interpolate linearly inside a bracketing segment,
and fall through to the last value past the last site. -/
def interp_go (x : ℚ) : List ℚ → List ℚ → ℚ
  | x0 :: x1 :: xs, y0 :: y1 :: ys =>
      if x ≤ x0 then y0
      else if x ≤ x1 then y0 + (y1 - y0) * (x - x0) / (x1 - x0)
      else interp_go x (x1 :: xs) (y1 :: ys)
  | [_], y0 :: _ => y0
  | _, _ => 0

/-- `np.interp(x, xp, fp)`: raises `ValueError` when `xp` and `fp`
differ in length or when `xp` is empty; otherwise the piecewise-linear
lookup of `interp_go`. -/
def np_interp (x : ℚ) (xp fp : List ℚ) : Except VthError ℚ :=
  if xp.length ≠ fp.length then .error .interpShapeMismatch
  else if xp.isEmpty then .error .interpEmpty
  else .ok (interp_go x xp fp)

/-- The structured result dictionary returned by
`VthExtractor.extract_vth_at_25c` in `src/engines/analysis.py`:
`results.vth_at_25c_volts` plus `raw_data.vgs_volts` and
`raw_data.id_amps`. -/
structure ExtractionResult where
  vth_at_25c_volts : ℚ
  vgs_volts : List ℚ
  id_amps : List ℚ
deriving DecidableEq

/-- `VthExtractor.extract_vth_at_25c(target_current)` from
`src/engines/analysis.py`: select the sweep step for 25 °C over the
internally built temperature array, fetch the gate-source voltage trace
`V(v_g_d)` and the resolved drain-current trace, take both waveforms at
the selected step, and interpolate the voltage at the target current.
Any lookup, retrieval or interpolation failure escapes as an error. -/
def extract_vth_at_25c (ts : TraceSet) (target_current : ℚ) :
    Except VthError ExtractionResult :=
  match get_trace ts "V(v_g_d)" with
  | none => .error (.traceNotFound ["V(v_g_d)"] (get_trace_names ts))
  | some vgs_trace =>
    match find_drain_current_trace ts with
    | .error e => .error e
    | .ok id_trace =>
      match get_wave vgs_trace step_idx_25 with
      | none => .error (.waveformUnavailable step_idx_25)
      | some vgs_wave =>
        match get_wave id_trace step_idx_25 with
        | none => .error (.waveformUnavailable step_idx_25)
        | some id_wave =>
          match np_interp target_current id_wave vgs_wave with
          | .error e => .error e
          | .ok vth => .ok ⟨vth, vgs_wave, id_wave⟩

/-- `VthExtractor.extract_vth_at_25c(target_current)` from the earlier
revision `src/analysis.py`: fixed drain-current trace name `Ix(xu1:D)`,
and the whole extraction wrapped in `try ... except Exception: return
None`, so every failure is coerced to `None` instead of an error. -/
def extract_vth_old (ts : TraceSet) (target_current : ℚ) : Option ℚ :=
  match get_trace ts "V(v_g_d)" with
  | none => none
  | some vgs_trace =>
    match get_trace ts "Ix(xu1:D)" with
    | none => none
    | some id_trace =>
      match get_wave vgs_trace step_idx_25_old, get_wave id_trace step_idx_25_old with
      | some vgs_wave, some id_wave =>
          match np_interp target_current id_wave vgs_wave with
          | .ok vth => some vth
          | .error _ => none
      | _, _ => none

/-- Python exceptions that can escape `run_vth_simulation` or be caught
by its `except Exception` clause. -/
inductive PyExn where
  | keyError (key : String)
  | runtimeError (msg : String)
  | extractionError (e : VthError)
deriving DecidableEq

/-- Outcomes of the external simulation steps performed inside the `try`
block of `run_vth_simulation`.
Modelled from the spec: the PyLTSpice `SimRunner`/`SpiceEditor` calls are
third-party, out-of-scope collaborators ("Simulation runner ... accepts
a device-model name and a library file path, produces either a completed
result handle or a failure"); their outcomes are supplied as data. -/
structure SimOutcome where
  /-- `runner.create_netlist` returned a usable netlist path. -/
  netlist_created : Bool
  /-- `runner.run_now` returned a `.raw` file. -/
  raw_file_produced : Bool
  /-- Outcome of `VthExtractor.extract_vth_at_25c` on the raw file. -/
  extraction : Except VthError ExtractionResult

/-- The JSON object serialised by `run_vth_simulation`: a `status` field,
the model name, and either the analysis results (success) or an
`error_message` (failure). -/
structure OutputData where
  status : String
  test_type : Option String
  model_name : String
  results : Option ExtractionResult
  error_message : Option String
deriving DecidableEq

/-- First-match lookup in the `model_info` dictionary. -/
def lookup_key : List (String × String) → String → Option String
  | [], _ => none
  | (k, v) :: rest, key => if k = key then some v else lookup_key rest key

/-- Message text of an exception, as `str(e)` would render it. -/
def exn_message : PyExn → String
  | .keyError key => key
  | .runtimeError msg => msg
  | .extractionError _ => "extraction error"

/-- The `try` block of `PyLTSpiceEngine.run_vth_simulation` from
`src/engines/pyltspice_engine.py`: netlist creation, the
lookup of the path entry of `model_info` for the `.lib` directive, the simulation run
and the extraction, each of which can fail with an exception. -/
def run_vth_try (name : String) (model_info : List (String × String))
    (sim : SimOutcome) : Except PyExn OutputData :=
  if !sim.netlist_created then
    .error (.runtimeError "Failed to create .net file from .asc.")
  else
    match lookup_key model_info "path" with
    | none => .error (.keyError "path")
    | some _ =>
      if !sim.raw_file_produced then
        .error (.runtimeError "Simulation failed to produce a .raw file.")
      else
        match sim.extraction with
        | .error e => .error (.extractionError e)
        | .ok res => .ok ⟨"success", some "vth_analysis", name, some res, none⟩

/-- `PyLTSpiceEngine.run_vth_simulation(model_info)` from
`src/engines/pyltspice_engine.py`.  The first statement prints
the name entry of `model_info` before the `try` block, so a missing key
raises a `KeyError` that propagates to the caller.  The
`except Exception` clause converts any failure inside the `try` block
into an error JSON carrying the model name and the failure message. -/
def run_vth_simulation (model_info : List (String × String))
    (sim : SimOutcome) : Except PyExn OutputData :=
  match lookup_key model_info "name" with
  | none => .error (.keyError "name")
  | some name =>
    match run_vth_try name model_info sim with
    | .ok out => .ok out
    | .error e => .ok ⟨"error", none, name, none, some (exn_message e)⟩

/-- The available-trace-name payload of a `TraceNotFoundError`, when the
outcome is that error. -/
def error_available : Except VthError ExtractionResult → Option (List String)
  | .error (.traceNotFound _ avail) => some avail
  | _ => none

/-- Demo gate-source voltage signal: nine sweep steps, each with the
waveform `[1, 2, 3]`. -/
def sig_v : Signal := ⟨List.replicate 9 [1, 2, 3]⟩

/-- Demo drain-current signal: nine sweep steps, each with the waveform
`[0, 1e-3, 2e-3]`. -/
def sig_i : Signal := ⟨List.replicate 9 [0, 1/1000, 2/1000]⟩

/-- Demo trace set holding the voltage trace and the first drain-current
candidate. -/
def ts_demo : TraceSet := ⟨[("V(v_g_d)", sig_v), ("Ix(xu1:D)", sig_i)]⟩

/-- A demo simulation outcome: the netlist is created but the run
produces no raw file. -/
def sim_demo : SimOutcome := ⟨true, false, .error .interpEmpty⟩

theorem temps_engines_eq : temps_engines =
    [-55, -45, -35, -25, -15, -5, 5, 15, 25, 35, 45, 55, 65, 75, 85, 95,
     105, 115, 125, 135, 145, 155, 165, 175] := by
  unfold temps_engines np_arange
  have h : ((1751 / 10 : ℚ) - -55) / 10 = 2301 / 100 := by norm_num
  rw [h]
  have hc : (⌈(2301 / 100 : ℚ)⌉ : ℤ) = 24 := by
    rw [Int.ceil_eq_iff]
    norm_num
  rw [hc]
  have hr : List.range (Int.toNat 24) = [0, 1, 2, 3, 4, 5, 6, 7, 8, 9, 10, 11,
      12, 13, 14, 15, 16, 17, 18, 19, 20, 21, 22, 23] := by rfl
  rw [hr]
  norm_num

theorem temps_old_eq : temps_old = temps_engines := by
  unfold temps_old temps_engines np_arange
  have h1 : ((176 : ℚ) - -55) / 10 = 231 / 10 := by norm_num
  have h2 : ((1751 / 10 : ℚ) - -55) / 10 = 2301 / 100 := by norm_num
  rw [h1, h2]
  have hc1 : (⌈(231 / 10 : ℚ)⌉ : ℤ) = 24 := by
    rw [Int.ceil_eq_iff]
    norm_num
  have hc2 : (⌈(2301 / 100 : ℚ)⌉ : ℤ) = 24 := by
    rw [Int.ceil_eq_iff]
    norm_num
  rw [hc1, hc2]

theorem select_temps_25 : select_step_idx temps_engines 25 = 8 := by
  rw [temps_engines_eq]
  norm_num [select_step_idx, argmin_go, np_abs]

theorem select_temps_26 : select_step_idx temps_engines 26 = 8 := by
  rw [temps_engines_eq]
  norm_num [select_step_idx, argmin_go, np_abs]

theorem np_abs_eq_abs (q : ℚ) : np_abs q = |q| := by
  unfold np_abs
  rcases lt_or_le q 0 with h | h
  · rw [if_pos h, abs_of_neg h]
  · rw [if_neg (not_lt.mpr h), abs_of_nonneg h]

theorem argmin_go_spec (target : ℚ) (ts : List ℚ) :
    ∀ (bestIdx curIdx : Nat) (bestVal : ℚ),
      (argmin_go target ts bestIdx bestVal curIdx = bestIdx ∧
        ∀ k, k < ts.length → bestVal ≤ |ts.getD k 0 - target|) ∨
      (∃ k, k < ts.length ∧
        argmin_go target ts bestIdx bestVal curIdx = curIdx + k ∧
        |ts.getD k 0 - target| < bestVal ∧
        (∀ m, m < ts.length → |ts.getD k 0 - target| ≤ |ts.getD m 0 - target|) ∧
        (∀ j, j < k → |ts.getD k 0 - target| < |ts.getD j 0 - target|)) := by
  induction ts with
  | nil =>
      intro bestIdx curIdx bestVal
      left
      exact ⟨rfl, fun k hk => absurd hk (Nat.not_lt_zero k)⟩
  | cons t ts ih =>
      intro bestIdx curIdx bestVal
      simp only [argmin_go, np_abs_eq_abs]
      by_cases h : |t - target| < bestVal
      · rw [if_pos h]
        rcases ih curIdx (curIdx + 1) |t - target| with ⟨heq, hall⟩ |
          ⟨k, hk, heq, hlt, hmin, hfirst⟩
        · right
          refine ⟨0, Nat.succ_pos _, by simpa using heq, by simpa using h, ?_, ?_⟩
          · intro m hm
            cases m with
            | zero => simp
            | succ m =>
                simp only [List.getD_cons_zero, List.getD_cons_succ]
                exact hall m (Nat.lt_of_succ_lt_succ hm)
          · intro j hj
            exact absurd hj (Nat.not_lt_zero j)
        · right
          refine ⟨k + 1, Nat.succ_lt_succ hk, ?_, ?_, ?_, ?_⟩
          · rw [heq]
            omega
          · simp only [List.getD_cons_succ]
            exact lt_trans hlt h
          · intro m hm
            cases m with
            | zero =>
                simp only [List.getD_cons_succ, List.getD_cons_zero]
                exact le_of_lt hlt
            | succ m =>
                simp only [List.getD_cons_succ]
                exact hmin m (Nat.lt_of_succ_lt_succ hm)
          · intro j hj
            cases j with
            | zero =>
                simp only [List.getD_cons_succ, List.getD_cons_zero]
                exact hlt
            | succ j =>
                simp only [List.getD_cons_succ]
                exact hfirst j (Nat.lt_of_succ_lt_succ hj)
      · rw [if_neg h]
        push_neg at h
        rcases ih bestIdx (curIdx + 1) bestVal with ⟨heq, hall⟩ |
          ⟨k, hk, heq, hlt, hmin, hfirst⟩
        · left
          refine ⟨heq, ?_⟩
          intro k hk
          cases k with
          | zero => simpa using h
          | succ k =>
              simp only [List.getD_cons_succ]
              exact hall k (Nat.lt_of_succ_lt_succ hk)
        · right
          refine ⟨k + 1, Nat.succ_lt_succ hk, ?_, ?_, ?_, ?_⟩
          · rw [heq]
            omega
          · simp only [List.getD_cons_succ]
            exact hlt
          · intro m hm
            cases m with
            | zero =>
                simp only [List.getD_cons_succ, List.getD_cons_zero]
                exact le_of_lt (lt_of_lt_of_le hlt h)
            | succ m =>
                simp only [List.getD_cons_succ]
                exact hmin m (Nat.lt_of_succ_lt_succ hm)
          · intro j hj
            cases j with
            | zero =>
                simp only [List.getD_cons_succ, List.getD_cons_zero]
                exact lt_of_lt_of_le hlt h
            | succ j =>
                simp only [List.getD_cons_succ]
                exact hfirst j (Nat.lt_of_succ_lt_succ hj)

theorem select_step_idx_spec (temps : List ℚ) (target : ℚ) (h : temps ≠ []) :
    select_step_idx temps target < temps.length ∧
    (∀ j, j < temps.length →
      |temps.getD (select_step_idx temps target) 0 - target| ≤
        |temps.getD j 0 - target|) ∧
    (∀ j, j < select_step_idx temps target →
      |temps.getD (select_step_idx temps target) 0 - target| <
        |temps.getD j 0 - target|) := by
  cases temps with
  | nil => exact absurd rfl h
  | cons t ts =>
      simp only [select_step_idx, np_abs_eq_abs]
      rcases argmin_go_spec target ts 0 1 |t - target| with ⟨heq, hall⟩ |
        ⟨k, hk, heq, hlt, hmin, hfirst⟩
      · rw [heq]
        refine ⟨Nat.succ_pos _, ?_, ?_⟩
        · intro j hj
          cases j with
          | zero => simp
          | succ j =>
              simp only [List.getD_cons_zero, List.getD_cons_succ]
              exact hall j (Nat.lt_of_succ_lt_succ hj)
        · intro j hj
          exact absurd hj (Nat.not_lt_zero j)
      · rw [heq]
        have hadd : 1 + k = k + 1 := Nat.add_comm 1 k
        rw [hadd]
        refine ⟨Nat.succ_lt_succ hk, ?_, ?_⟩
        · intro j hj
          cases j with
          | zero =>
              simp only [List.getD_cons_succ, List.getD_cons_zero]
              exact le_of_lt hlt
          | succ j =>
              simp only [List.getD_cons_succ]
              exact hmin j (Nat.lt_of_succ_lt_succ hj)
        · intro j hj
          cases j with
          | zero =>
              simp only [List.getD_cons_succ, List.getD_cons_zero]
              exact hlt
          | succ j =>
              simp only [List.getD_cons_succ]
              exact hfirst j (Nat.lt_of_succ_lt_succ hj)

/-- Claim C1: for every non-empty sweep-value sequence and every target
temperature, the step selection picks the lowest index minimizing the
absolute difference between the sweep value and the target, computed
generically from the supplied sequence; in particular, on the sequence
−55, −45, …, 175 it selects index 8 for target 25 and still index 8 for
target 26. -/
theorem C1_nearest_step_selection :
    (∀ (temps : List ℚ) (target : ℚ), temps ≠ [] →
      select_step_idx temps target < temps.length ∧
      (∀ j, j < temps.length →
        |temps.getD (select_step_idx temps target) 0 - target| ≤
          |temps.getD j 0 - target|) ∧
      (∀ j, j < select_step_idx temps target →
        |temps.getD (select_step_idx temps target) 0 - target| <
          |temps.getD j 0 - target|)) ∧
    select_step_idx [-55, -45, -35, -25, -15, -5, 5, 15, 25, 35, 45, 55, 65,
      75, 85, 95, 105, 115, 125, 135, 145, 155, 165, 175] 25 = 8 ∧
    select_step_idx [-55, -45, -35, -25, -15, -5, 5, 15, 25, 35, 45, 55, 65,
      75, 85, 95, 105, 115, 125, 135, 145, 155, 165, 175] 26 = 8 := by
  refine ⟨fun temps target h => select_step_idx_spec temps target h, ?_, ?_⟩
  · rw [← temps_engines_eq]
    exact select_temps_25
  · rw [← temps_engines_eq]
    exact select_temps_26

/-- Witness for C1: the generic part applied to the concrete sequence
`[25, 35]` with target 26. -/
theorem C1_nearest_step_selection_witness :
    select_step_idx [(25 : ℚ), 35] 26 < [(25 : ℚ), 35].length :=
  (C1_nearest_step_selection.1 [25, 35] 26 (by simp)).1

/-- Claim C6: for an empty sweep-value sequence the step selection falls
back to step index 0 — totally, without failing — regardless of the
target temperature. -/
theorem C6_empty_sweep_fallback (target : ℚ) :
    select_step_idx ([] : List ℚ) target = 0 := rfl

/-- Witness for C6: the empty-sequence fallback at target 99. -/
theorem C6_empty_sweep_fallback_witness :
    select_step_idx ([] : List ℚ) 99 = 0 :=
  C6_empty_sweep_fallback 99

/-- Claim C9: in both analysis revisions the internally built temperature
array is the fixed non-empty 24-element sequence −55, −45, …, 175, so the
empty-array fallback of the step selection is unreachable and the step
analyzed for target 25 °C is index 8 in both revisions. -/
theorem C9_fixed_temperature_array :
    temps_engines = [-55, -45, -35, -25, -15, -5, 5, 15, 25, 35, 45, 55, 65,
      75, 85, 95, 105, 115, 125, 135, 145, 155, 165, 175] ∧
    temps_old = temps_engines ∧
    temps_engines.length = 24 ∧
    temps_engines ≠ [] ∧
    select_step_idx temps_engines 25 = 8 ∧
    select_step_idx temps_old 25 = 8 := by
  refine ⟨temps_engines_eq, temps_old_eq, ?_, ?_, select_temps_25, ?_⟩
  · rw [temps_engines_eq]
    rfl
  · rw [temps_engines_eq]
    simp
  · rw [temps_old_eq]
    exact select_temps_25

theorem sorted_getD_lt {l : List ℚ} (hs : l.Sorted (· < ·)) {i j : Nat}
    (hij : i < j) (hj : j < l.length) : l.getD i 0 < l.getD j 0 := by
  rw [List.getD_eq_get _ _ (lt_trans hij hj), List.getD_eq_get _ _ hj]
  exact hs.rel_get_of_lt hij

theorem interp_go_first (x x0 y0 : ℚ) (xs ys : List ℚ)
    (hlen : xs.length = ys.length) (h : x ≤ x0) :
    interp_go x (x0 :: xs) (y0 :: ys) = y0 := by
  cases xs with
  | nil =>
      cases ys with
      | nil => rfl
      | cons y1 ys => simp at hlen
  | cons x1 xs =>
      cases ys with
      | nil => simp at hlen
      | cons y1 ys =>
          simp only [interp_go]
          rw [if_pos h]

theorem interp_go_last (x : ℚ) (xp : List ℚ) :
    ∀ fp : List ℚ, xp.length = fp.length → (hf : fp ≠ []) →
      (∀ t ∈ xp, t < x) → interp_go x xp fp = fp.getLast hf := by
  induction xp with
  | nil =>
      intro fp hlen hf _
      exact absurd (List.length_eq_zero.mp hlen.symm) hf
  | cons x0 xs ih =>
      intro fp hlen hf hall
      cases fp with
      | nil => simp at hlen
      | cons y0 ys =>
          cases xs with
          | nil =>
              cases ys with
              | nil => rfl
              | cons y1 ys => simp at hlen
          | cons x1 xs =>
              cases ys with
              | nil => simp at hlen
              | cons y1 ys =>
                  simp only [interp_go]
                  rw [if_neg (not_le.mpr (hall x0 (by simp))),
                    if_neg (not_le.mpr (hall x1 (by simp)))]
                  rw [ih (y1 :: ys) (by simpa using hlen) (by simp)
                    (fun t ht => hall t (List.mem_cons_of_mem x0 ht))]
                  exact (List.getLast_cons (by simp)).symm

theorem interp_go_bracket (x : ℚ) (xp : List ℚ) :
    ∀ (fp : List ℚ) (i : Nat), xp.Sorted (· < ·) → xp.length = fp.length →
      i + 1 < xp.length → xp.getD i 0 < x → x ≤ xp.getD (i + 1) 0 →
      interp_go x xp fp =
        fp.getD i 0 + (fp.getD (i + 1) 0 - fp.getD i 0) * (x - xp.getD i 0) /
          (xp.getD (i + 1) 0 - xp.getD i 0) := by
  induction xp with
  | nil =>
      intro fp i _ _ hi _ _
      exact absurd hi (by simp)
  | cons x0 xs ih =>
      intro fp i hs hlen hi hlow hhigh
      cases fp with
      | nil => simp at hlen
      | cons y0 ys =>
          cases i with
          | zero =>
              cases xs with
              | nil => simp at hi
              | cons x1 xs =>
                  cases ys with
                  | nil => simp at hlen
                  | cons y1 ys =>
                      simp only [List.getD_cons_zero, List.getD_cons_succ] at hlow hhigh ⊢
                      simp only [interp_go]
                      rw [if_neg (not_le.mpr hlow), if_pos hhigh]
          | succ i =>
              cases xs with
              | nil => simp at hi
              | cons x1 xs =>
                  cases ys with
                  | nil => simp at hlen
                  | cons y1 ys =>
                      have hi' : i + 1 < (x1 :: xs).length := by
                        simpa using hi
                      have hlow' : (x1 :: xs).getD i 0 < x := by
                        simpa using hlow
                      have hhigh' : x ≤ (x1 :: xs).getD (i + 1) 0 := by
                        simpa using hhigh
                      have hx0 : x0 < x := by
                        calc x0 < (x1 :: xs).getD i 0 := by
                              have hmem : (x1 :: xs).getD i 0 ∈ x1 :: xs := by
                                rw [List.getD_eq_get _ _ (Nat.lt_of_succ_lt hi')]
                                exact List.get_mem _ _ _
                              exact (List.sorted_cons.mp hs).1 _ hmem
                          _ < x := hlow'
                      have hx1 : x1 < x := by
                        cases Nat.eq_zero_or_pos i with
                        | inl h0 =>
                            subst h0
                            simpa using hlow'
                        | inr hpos =>
                            calc x1 = (x1 :: xs).getD 0 0 := rfl
                              _ < (x1 :: xs).getD i 0 :=
                                  sorted_getD_lt (List.sorted_cons.mp hs).2 hpos
                                    (Nat.lt_of_succ_lt hi')
                              _ < x := hlow'
                      simp only [interp_go]
                      rw [if_neg (not_le.mpr hx0), if_neg (not_le.mpr hx1)]
                      rw [ih (y1 :: ys) i (List.sorted_cons.mp hs).2
                        (by simpa using hlen) hi' hlow' hhigh']
                      simp only [List.getD_cons_succ]

theorem sorted_getD_le {l : List ℚ} (hs : l.Sorted (· < ·)) {i j : Nat}
    (hij : i ≤ j) (hj : j < l.length) : l.getD i 0 ≤ l.getD j 0 := by
  rcases Nat.lt_or_ge i j with h | h
  · exact le_of_lt (sorted_getD_lt hs h hj)
  · have : i = j := Nat.le_antisymm (Nat.le_of_lt_succ (Nat.lt_succ_of_le hij)) h
    rw [this]

theorem np_interp_below (x : ℚ) (xp fp : List ℚ) (hlen : xp.length = fp.length)
    (hne : xp ≠ []) (h : x < xp.getD 0 0) :
    np_interp x xp fp = .ok (fp.getD 0 0) := by
  cases xp with
  | nil => exact absurd rfl hne
  | cons x0 xs =>
      cases fp with
      | nil => simp at hlen
      | cons y0 ys =>
          unfold np_interp
          rw [if_neg (not_not_intro hlen), if_neg (by simp)]
          simp only [List.getD_cons_zero] at h ⊢
          rw [interp_go_first x x0 y0 xs ys (by simpa using hlen) (le_of_lt h)]

theorem np_interp_above (x : ℚ) (xp fp : List ℚ) (hlen : xp.length = fp.length)
    (hf : fp ≠ []) (hs : xp.Sorted (· < ·))
    (h : xp.getD (xp.length - 1) 0 < x) :
    np_interp x xp fp = .ok (fp.getLast hf) := by
  have hne : xp ≠ [] := by
    intro hnil
    rw [hnil] at hlen
    exact hf (List.length_eq_zero.mp hlen.symm)
  have hall : ∀ t ∈ xp, t < x := by
    intro t ht
    obtain ⟨n, hn, rfl⟩ := List.mem_iff_get.mp ht
    have hle : xp.getD n.val 0 ≤ xp.getD (xp.length - 1) 0 :=
      sorted_getD_le hs (Nat.le_sub_one_of_lt n.isLt)
        (Nat.sub_lt (List.length_pos.mpr hne) Nat.one_pos)
    rw [List.getD_eq_get _ _ n.isLt] at hle
    exact lt_of_le_of_lt hle h
  cases xp with
  | nil => exact absurd rfl hne
  | cons x0 xs =>
      cases fp with
      | nil => exact absurd rfl hf
      | cons y0 ys =>
          unfold np_interp
          rw [if_neg (not_not_intro hlen), if_neg (by simp)]
          rw [interp_go_last x (x0 :: xs) (y0 :: ys) hlen hf hall]

theorem np_interp_bracket (x : ℚ) (xp fp : List ℚ) (i : Nat)
    (hs : xp.Sorted (· < ·)) (hlen : xp.length = fp.length)
    (hi : i + 1 < xp.length) (hlow : xp.getD i 0 < x)
    (hhigh : x ≤ xp.getD (i + 1) 0) :
    np_interp x xp fp =
      .ok (fp.getD i 0 + (fp.getD (i + 1) 0 - fp.getD i 0) * (x - xp.getD i 0) /
        (xp.getD (i + 1) 0 - xp.getD i 0)) := by
  have hne : xp ≠ [] := by
    intro hnil
    rw [hnil] at hi
    simp at hi
  cases xp with
  | nil => exact absurd rfl hne
  | cons x0 xs =>
      cases fp with
      | nil => simp at hlen
      | cons y0 ys =>
          unfold np_interp
          rw [if_neg (not_not_intro hlen), if_neg (by simp)]
          rw [interp_go_bracket x (x0 :: xs) (y0 :: ys) i hs hlen hi hlow hhigh]

/-- Claim C2: the threshold computation is a monotonic piecewise-linear
lookup with the current samples as x-coordinates and the voltage samples
as y-values: below the first sample it clamps to the first voltage,
above the last sample it clamps to the last voltage, inside a bracketing
segment it interpolates linearly; concretely, on current samples
`[0, 1e-3, 2e-3]` and voltage samples `[1, 2, 3]`, target −1 yields 1,
target 5e-3 yields 3, and target 1.5e-3 yields 5/2. -/
theorem C2_interp_clamped_linear :
    (∀ (x : ℚ) (xp fp : List ℚ), xp.length = fp.length → xp ≠ [] →
      x < xp.getD 0 0 → np_interp x xp fp = .ok (fp.getD 0 0)) ∧
    (∀ (x : ℚ) (xp fp : List ℚ), xp.length = fp.length → (hf : fp ≠ []) →
      xp.Sorted (· < ·) → xp.getD (xp.length - 1) 0 < x →
      np_interp x xp fp = .ok (fp.getLast hf)) ∧
    (∀ (x : ℚ) (xp fp : List ℚ) (i : Nat), xp.Sorted (· < ·) →
      xp.length = fp.length → i + 1 < xp.length → xp.getD i 0 < x →
      x ≤ xp.getD (i + 1) 0 →
      np_interp x xp fp =
        .ok (fp.getD i 0 + (fp.getD (i + 1) 0 - fp.getD i 0) *
          (x - xp.getD i 0) / (xp.getD (i + 1) 0 - xp.getD i 0))) ∧
    np_interp (-1) [0, 1/1000, 2/1000] [1, 2, 3] = .ok 1 ∧
    np_interp (1/200) [0, 1/1000, 2/1000] [1, 2, 3] = .ok 3 ∧
    np_interp (3/2000) [0, 1/1000, 2/1000] [1, 2, 3] = .ok (5/2) := by
  refine ⟨np_interp_below, fun x xp fp hlen hf hs h => np_interp_above x xp fp hlen hf hs h,
    fun x xp fp i hs hlen hi hlow hhigh => np_interp_bracket x xp fp i hs hlen hi hlow hhigh,
    ?_, ?_, ?_⟩
  · norm_num [np_interp, interp_go]
  · norm_num [np_interp, interp_go]
  · norm_num [np_interp, interp_go]

/-- Witness for C2: the below-range clamp applied at a concrete input. -/
theorem C2_interp_clamped_linear_witness :
    np_interp (-5) [(0 : ℚ), 1] [10, 20] = .ok ([(10 : ℚ), 20].getD 0 0) :=
  C2_interp_clamped_linear.1 (-5) [0, 1] [10, 20] (by simp) (by simp) (by norm_num)

theorem findSome_find_first (all_traces : List String) (names : List String) :
    ∀ i, i < names.length →
      (∃ t ∈ all_traces, str_lower t = str_lower (names.getD i "")) →
      (∀ j, j < i → ∀ t ∈ all_traces, str_lower t ≠ str_lower (names.getD j "")) →
      ∃ t, names.findSome? (fun name =>
          all_traces.find? (fun trace => str_lower trace == str_lower name)) = some t ∧
        t ∈ all_traces ∧ str_lower t = str_lower (names.getD i "") := by
  induction names with
  | nil =>
      intro i hi
      simp at hi
  | cons n ns ih =>
      intro i hi hex hnone
      cases i with
      | zero =>
          simp only [List.getD_cons_zero] at hex ⊢
          have hsome : (all_traces.find? (fun trace =>
              str_lower trace == str_lower n)).isSome := by
            rw [List.find?_isSome]
            obtain ⟨t, ht, hm⟩ := hex
            exact ⟨t, ht, by simpa using hm⟩
          obtain ⟨t, hfind⟩ := Option.isSome_iff_exists.mp hsome
          refine ⟨t, ?_, List.mem_of_find?_eq_some hfind, ?_⟩
          · rw [List.findSome?_cons, hfind]
          · simpa using List.find?_some hfind
      | succ i =>
          have hzero : all_traces.find? (fun trace =>
              str_lower trace == str_lower n) = none := by
            rw [List.find?_eq_none]
            intro t ht
            simpa using hnone 0 (Nat.succ_pos i) t ht
          rw [List.findSome?_cons, hzero]
          simp only [List.getD_cons_succ] at hex ⊢
          exact ih i (by simpa using hi) hex
            (fun j hj t ht => by
              simpa using hnone (j + 1) (Nat.succ_lt_succ hj) t ht)

/-- Claim C3: drain-current trace resolution tries the fixed candidate
list in order with case-insensitive exact matching against all available
trace names, and the first candidate with a match wins; in particular,
for available names `["Ix(XU1:D)", "V(v_g_d)"]` the first candidate
matches and the trace `"Ix(XU1:D)"` is selected. -/
theorem C3_drain_trace_resolution :
    (∀ (all_traces : List String) (i : Nat), i < possible_names.length →
      (∃ t ∈ all_traces, str_lower t = str_lower (possible_names.getD i "")) →
      (∀ j, j < i → ∀ t ∈ all_traces,
        str_lower t ≠ str_lower (possible_names.getD j "")) →
      ∃ t, find_matching_trace_name all_traces = some t ∧ t ∈ all_traces ∧
        str_lower t = str_lower (possible_names.getD i "")) ∧
    find_matching_trace_name ["Ix(XU1:D)", "V(v_g_d)"] = some "Ix(XU1:D)" := by
  constructor
  · intro all_traces i hi hex hnone
    exact findSome_find_first all_traces possible_names i hi hex hnone
  · decide

/-- Witness for C3: the generic first-match statement applied to the
fourth candidate `Id(M1)` on the concrete trace list `["ID(M1)"]`. -/
theorem C3_drain_trace_resolution_witness :
    find_matching_trace_name ["ID(M1)"] = some "ID(M1)" := by
  obtain ⟨t, hsome, hmem, -⟩ := C3_drain_trace_resolution.1 ["ID(M1)"] 3
    (by decide) ⟨"ID(M1)", by simp, by decide⟩ (by decide)
  rw [List.mem_singleton] at hmem
  rw [hmem] at hsome
  exact hsome

/-- Claim C4: whenever none of the four drain-current candidates matches
any available trace name case-insensitively, extraction fails with a
`TraceNotFoundError` whose payload carries the full available-trace-name
list. -/
theorem C4_no_candidate_trace_not_found (ts : TraceSet) (tc : ℚ)
    (h : ∀ t ∈ get_trace_names ts, ∀ name ∈ possible_names,
      str_lower t ≠ str_lower name) :
    error_available (extract_vth_at_25c ts tc) = some (get_trace_names ts) := by
  have hmatch : find_matching_trace_name (get_trace_names ts) = none := by
    unfold find_matching_trace_name
    rw [List.findSome?_eq_none]
    intro name hname
    rw [List.find?_eq_none]
    intro t ht
    simpa using h t ht name hname
  have hdrain : find_drain_current_trace ts =
      .error (.traceNotFound possible_names (get_trace_names ts)) := by
    unfold find_drain_current_trace
    rw [hmatch]
  unfold extract_vth_at_25c
  cases hv : get_trace ts "V(v_g_d)" with
  | none => rfl
  | some vgs_trace =>
      rw [hdrain]
      rfl

/-- Witness for C4: the empty trace set contains no candidate, and the
failure payload is its (empty) available-name list. -/
theorem C4_no_candidate_trace_not_found_witness :
    error_available (extract_vth_at_25c ⟨[]⟩ 1) =
      some (get_trace_names ⟨[]⟩) :=
  C4_no_candidate_trace_not_found ⟨[]⟩ 1 (by simp [get_trace_names])

theorem np_interp_ok_shape (x : ℚ) (xp fp : List ℚ) (v : ℚ)
    (h : np_interp x xp fp = .ok v) : xp.length = fp.length ∧ xp ≠ [] := by
  unfold np_interp at h
  by_cases h1 : xp.length ≠ fp.length
  · rw [if_pos h1] at h
    exact absurd h (by simp)
  · rw [if_neg h1] at h
    by_cases h2 : xp.isEmpty = true
    · rw [if_pos h2] at h
      exact absurd h (by simp)
    · refine ⟨not_not.mp h1, ?_⟩
      intro hnil
      rw [hnil] at h2
      exact h2 rfl

theorem extract_ok_inversion (ts : TraceSet) (tc : ℚ) (r : ExtractionResult)
    (h : extract_vth_at_25c ts tc = .ok r) :
    ∃ (vgs_trace id_trace : Signal) (vgs_wave id_wave : List ℚ),
      get_trace ts "V(v_g_d)" = some vgs_trace ∧
      find_drain_current_trace ts = .ok id_trace ∧
      get_wave vgs_trace step_idx_25 = some vgs_wave ∧
      get_wave id_trace step_idx_25 = some id_wave ∧
      np_interp tc id_wave vgs_wave = .ok r.vth_at_25c_volts ∧
      r.vgs_volts = vgs_wave ∧ r.id_amps = id_wave := by
  unfold extract_vth_at_25c at h
  split at h
  · exact Except.noConfusion h
  · rename_i vgs_trace hv
    split at h
    · exact Except.noConfusion h
    · rename_i id_trace hf
      split at h
      · exact Except.noConfusion h
      · rename_i vgs_wave hwv
        split at h
        · exact Except.noConfusion h
        · rename_i id_wave hwi
          split at h
          · exact Except.noConfusion h
          · rename_i vth hni
            injection h with h2
            subst h2
            exact ⟨vgs_trace, id_trace, vgs_wave, id_wave,
              hv, hf, hwv, hwi, hni, rfl, rfl⟩

/-- Claim C7: on every successful extraction the returned voltage and
current sample lists are exactly the retrieved waveforms, unmodified in
value and order, and of equal length to each other. -/
theorem C7_roundtrip (ts : TraceSet) (tc : ℚ) (r : ExtractionResult)
    (h : extract_vth_at_25c ts tc = .ok r) :
    ∃ (vgs_trace id_trace : Signal) (vgs_wave id_wave : List ℚ),
      get_trace ts "V(v_g_d)" = some vgs_trace ∧
      find_drain_current_trace ts = .ok id_trace ∧
      get_wave vgs_trace (step_idx_25) = some vgs_wave ∧
      get_wave id_trace (step_idx_25) = some id_wave ∧
      r.vgs_volts = vgs_wave ∧ r.id_amps = id_wave ∧
      r.vgs_volts.length = r.id_amps.length := by
  obtain ⟨vt, it, vw, iw, hv, hf, hwv, hwi, hni, hrv, hri⟩ :=
    extract_ok_inversion ts tc r h
  obtain ⟨hlen, -⟩ := np_interp_ok_shape tc iw vw r.vth_at_25c_volts hni
  exact ⟨vt, it, vw, iw, hv, hf, hwv, hwi, hrv, hri, by rw [hrv, hri, hlen]⟩

theorem ts_demo_extract :
    extract_vth_at_25c ts_demo (1/1000) =
      .ok ⟨2, [1, 2, 3], [0, 1/1000, 2/1000]⟩ := by
  have hv : get_trace ts_demo "V(v_g_d)" = some sig_v := rfl
  have hf : find_drain_current_trace ts_demo = .ok sig_i := rfl
  have hwv : get_wave sig_v 8 = some [1, 2, 3] := rfl
  have hwi : get_wave sig_i 8 = some [0, 1/1000, 2/1000] := rfl
  have hni : np_interp (1/1000) [0, 1/1000, 2/1000] [1, 2, 3] = .ok 2 := by
    norm_num [np_interp, interp_go]
  have hstep : step_idx_25 = 8 := by
    unfold step_idx_25
    exact select_temps_25
  unfold extract_vth_at_25c
  rw [hstep]
  simp only [hv, hf, hwv, hwi, hni]

/-- Witness for C7: a successful concrete extraction returns sample
lists of equal length. -/
theorem C7_roundtrip_witness :
    (ExtractionResult.mk 2 [1, 2, 3] [0, 1/1000, 2/1000]).vgs_volts.length =
      (ExtractionResult.mk 2 [1, 2, 3] [0, 1/1000, 2/1000]).id_amps.length := by
  obtain ⟨-, -, -, -, -, -, -, -, -, -, hlen⟩ := C7_roundtrip ts_demo (1/1000)
    ⟨2, [1, 2, 3], [0, 1/1000, 2/1000]⟩ ts_demo_extract
  exact hlen

/-- Counterexample to claim C5 as stated over both revisions: in the
earlier revision (`src/analysis.py`) a failing input — the empty trace
set, on which the voltage-trace lookup fails — yields the sentinel
`None` instead of a surfaced error. -/
theorem C5_counterexample :
    get_trace (⟨[]⟩ : TraceSet) "V(v_g_d)" = none ∧
    extract_vth_old ⟨[]⟩ (1/1000) = none :=
  ⟨rfl, rfl⟩

/-- Claim C5 (amended to the `src/engines/analysis.py` revision): that
extractor never coerces a failure into a sentinel — every outcome is
either a success or a typed error, a failing voltage-trace lookup
surfaces `TraceNotFoundError`, and a failing drain-current resolution
surfaces its typed error unchanged. -/
theorem C5_engines_no_sentinel :
    (∀ (ts : TraceSet) (tc : ℚ), (∃ r, extract_vth_at_25c ts tc = .ok r) ∨
      (∃ e, extract_vth_at_25c ts tc = .error e)) ∧
    (∀ (ts : TraceSet) (tc : ℚ), get_trace ts "V(v_g_d)" = none →
      extract_vth_at_25c ts tc =
        .error (.traceNotFound ["V(v_g_d)"] (get_trace_names ts))) ∧
    (∀ (ts : TraceSet) (tc : ℚ) (s : Signal) (e : VthError),
      get_trace ts "V(v_g_d)" = some s → find_drain_current_trace ts = .error e →
      extract_vth_at_25c ts tc = .error e) := by
  refine ⟨?_, ?_, ?_⟩
  · intro ts tc
    cases h : extract_vth_at_25c ts tc with
    | ok r => exact Or.inl ⟨r, rfl⟩
    | error e => exact Or.inr ⟨e, rfl⟩
  · intro ts tc hv
    unfold extract_vth_at_25c
    rw [hv]
  · intro ts tc s e hv hf
    unfold extract_vth_at_25c
    rw [hv, hf]

/-- Witness for C5: the empty trace set makes the voltage-trace lookup
fail and the extraction surfaces the typed error. -/
theorem C5_engines_no_sentinel_witness :
    extract_vth_at_25c ⟨[]⟩ 1 =
      .error (.traceNotFound ["V(v_g_d)"] (get_trace_names ⟨[]⟩)) :=
  C5_engines_no_sentinel.2.1 ⟨[]⟩ 1 rfl

/-- Claim C8: extraction is deterministic — two calls on identical
inputs return identical results; the embedding is a pure function of its
inputs, mirroring that the Python code mutates neither its inputs nor
hidden state. -/
theorem C8_deterministic (ts₁ ts₂ : TraceSet) (tc₁ tc₂ : ℚ)
    (h₁ : ts₁ = ts₂) (h₂ : tc₁ = tc₂) :
    extract_vth_at_25c ts₁ tc₁ = extract_vth_at_25c ts₂ tc₂ := by
  rw [h₁, h₂]

/-- Witness for C8: two identical concrete calls agree. -/
theorem C8_deterministic_witness :
    extract_vth_at_25c ts_demo (1/1000) = extract_vth_at_25c ts_demo (1/1000) :=
  C8_deterministic ts_demo ts_demo (1/1000) (1/1000) rfl rfl

theorem run_vth_try_ok (name : String) (model_info : List (String × String))
    (sim : SimOutcome) (out : OutputData)
    (h : run_vth_try name model_info sim = .ok out) :
    out.status = "success" ∧ out.model_name = name ∧ out.results.isSome := by
  unfold run_vth_try at h
  split at h
  · exact Except.noConfusion h
  · split at h
    · exact Except.noConfusion h
    · split at h
      · exact Except.noConfusion h
      · split at h
        · exact Except.noConfusion h
        · injection h with h2
          subst h2
          exact ⟨rfl, rfl, rfl⟩

/-- Counterexample to claim C10 as stated: with a `model_info` lacking
the `name` key, `run_vth_simulation` propagates a `KeyError` raised by
the pre-`try` statement instead of returning a JSON result. -/
theorem C10_counterexample :
    run_vth_simulation [] sim_demo = .error (.keyError "name") := rfl

/-- Claim C10 (amended): whenever `model_info` contains a `name` entry,
`run_vth_simulation` propagates no exception — for every outcome of
netlist creation, simulation and extraction it returns a JSON object
whose status is `success` or `error`, which carries the model name, an
`error_message` on failure, and the analysis results on success. -/
theorem C10_engine_json_result (model_info : List (String × String))
    (sim : SimOutcome) (name : String)
    (h : lookup_key model_info "name" = some name) :
    ∃ out, run_vth_simulation model_info sim = Except.ok out ∧
      (out.status = "success" ∨ out.status = "error") ∧
      out.model_name = name ∧
      (out.status = "error" → out.error_message.isSome) ∧
      (out.status = "success" → out.results.isSome) := by
  have hrun : run_vth_simulation model_info sim =
      (match run_vth_try name model_info sim with
       | .ok out => .ok out
       | .error e => .ok ⟨"error", none, name, none, some (exn_message e)⟩) := by
    unfold run_vth_simulation
    rw [h]
  rw [hrun]
  cases htry : run_vth_try name model_info sim with
  | ok out =>
      obtain ⟨hs, hn, hr⟩ := run_vth_try_ok name model_info sim out htry
      exact ⟨out, rfl, Or.inl hs, hn,
        fun herr => absurd (hs.symm.trans herr) (by decide),
        fun _ => hr⟩
  | error e =>
      refine ⟨⟨"error", none, name, none, some (exn_message e)⟩, rfl,
        Or.inr rfl, rfl, fun _ => rfl, fun hsucc => ?_⟩
      have hne : ("error" : String) ≠ "success" := by decide
      exact absurd hsucc hne

/-- Witness for C10: a concrete `model_info` with a `name` entry and a
failing simulation still yields a JSON result. -/
theorem C10_engine_json_result_witness :
    ∃ out, run_vth_simulation [("name", "IRF540N"), ("path", "devices.lib")]
        sim_demo = Except.ok out ∧
      (out.status = "success" ∨ out.status = "error") ∧
      out.model_name = "IRF540N" ∧
      (out.status = "error" → out.error_message.isSome) ∧
      (out.status = "success" → out.results.isSome) :=
  C10_engine_json_result [("name", "IRF540N"), ("path", "devices.lib")]
    sim_demo "IRF540N" rfl

end Rilla
